import Mathlib

/-!
Shallow embedding of the lakeFS versioned-catalog core: the merkle workspace
diff engine (`index/workspace.go`) and the staged-entry revert operation
(`catalog/cataloger_revert_entry.go`).

Go pointer fields are embedded as `Option`; dereferencing an absent pointer is
a runtime panic in Go and is represented by the distinguished outcome
`DiffErr.nilDeref`.  Store calls return `Except StoreErr`, with
`StoreErr.notFound` standing for `db.ErrNotFound`.  In Go the recursion of
`diffRecursive` carries no explicit bound, so the embedding threads a fuel
counter; exhausting it yields the distinguished outcome `DiffErr.outOfFuel`,
which the termination theorem shows is never reached on well-formed stores.
Go's `int` fields (`TombstoneCount`, `ObjectCount`, branch ids, commit
markers) are embedded as `Int`.
-/

inductive EntryType
  | tree
  | object
deriving DecidableEq

/-- Committed merkle-tree node (`model.Entry`): content-addressed, immutable. -/
structure Entry where
  name : String
  address : String
  entryType : EntryType
  checksum : String
  objectCount : Int
deriving DecidableEq

/-- Staged change on a branch (`model.WorkspaceEntry`).  `entryName`,
`entryType` and `entryChecksum` are pointer fields in Go (`*string`,
`*model.EntryType`), hence `Option` here. -/
structure WorkspaceEntry where
  path : String
  entryName : Option String
  entryType : Option EntryType
  entryChecksum : Option String
  tombstoneCount : Int
deriving DecidableEq

/-- Branch record as read by the diff engine: only `CommitRoot` is consumed. -/
structure Branch where
  commitRoot : String
deriving DecidableEq

/-- `merkle.Merkle`: a handle on a tree root.  `diffRecursive` threads it but
never reads it (lookups go through `Entry.address`). -/
structure Merkle where
  root : String
deriving DecidableEq

inductive DifferenceType
  | added
  | removed
  | changed
  | conflict
deriving DecidableEq

inductive DifferenceDirection
  | left
  | right
deriving DecidableEq

/-- One element of the diff engine's output (`merkle.Difference`). -/
structure Difference where
  dtype : DifferenceType
  direction : DifferenceDirection
  path : String
  pathType : EntryType
deriving DecidableEq

/-- Errors surfaced by the Tree Store / Workspace Store.  `notFound` is
`db.ErrNotFound`; `other` covers any storage/transport failure. -/
inductive StoreErr
  | notFound
  | other (code : Nat)
deriving DecidableEq

/-- Outcome of the diff besides a difference list: a propagated store error, a
Go nil-pointer dereference (runtime panic), or fuel exhaustion (an artifact of
the fuel embedding of the unbounded Go recursion). -/
inductive DiffErr
  | store (e : StoreErr)
  | nilDeref
  | outOfFuel
deriving DecidableEq

/-- The store operations the diff engine consumes within one repository-scoped
transaction (`store.RepoOperations`).  `listWorkspaceDirectory` takes
(branch, path, after-marker, page token, limit) and returns the staged
children of the directory together with a continuation token. -/
structure RepoOperations where
  readBranch : String → Except StoreErr Branch
  listWorkspaceDirectory :
    String → String → String → String → Int → Except StoreErr (List WorkspaceEntry × String)
  readTreeEntry : String → String → Except StoreErr Entry

/-- `wsPath` computed at the directory pass: `""` for the nil root entry,
otherwise the workspace entry's path. -/
def wsPathOf : Option WorkspaceEntry → String
  | none => ""
  | some w => w.path

/-- `ReadTreeEntry` with the engine's not-found policy: `db.ErrNotFound` is
turned into `none` (no committed counterpart), any other store error aborts. -/
def lookupTreeChild (tx : RepoOperations) (address name : String) :
    Except DiffErr (Option Entry) :=
  match tx.readTreeEntry address name with
  | .error .notFound => .ok none
  | .error e => .error (.store e)
  | .ok te => .ok (some te)

/-- The guard `currentEntry != nil && currentWsEntry.TombstoneCount ==
currentEntry.ObjectCount` of the child loop. -/
def isFullTombstone (c : WorkspaceEntry) : Option Entry → Bool
  | some te => c.tombstoneCount == te.objectCount
  | none => false

/-- The child loop of `diffRecursive` (the per-directory pass), with the
recursive call abstracted as `recur`.  For each staged child: look up the tree
child of the same name (Go dereferences `*c.EntryName` in the call), apply the
full-tombstone short-circuit (emitting `Removed` with `*c.EntryType` and
skipping recursion via `continue`), otherwise recurse; differences accumulate
in visit order and any error aborts the loop. -/
def diffChildren (tx : RepoOperations) (entry : Entry)
    (recur : WorkspaceEntry → Option Entry → Except DiffErr (List Difference)) :
    List WorkspaceEntry → Except DiffErr (List Difference)
  | [] => .ok []
  | c :: rest =>
    match c.entryName with
    | none => .error .nilDeref
    | some name =>
      match lookupTreeChild tx entry.address name with
      | .error e => .error e
      | .ok currentEntry =>
        if isFullTombstone c currentEntry then
          match c.entryType with
          | none => .error .nilDeref
          | some t =>
            match diffChildren tx entry recur rest with
            | .error e => .error e
            | .ok restDiffs =>
              .ok ({ dtype := .removed, direction := .left,
                     path := c.path, pathType := t } :: restDiffs)
        else
          match recur c currentEntry with
          | .error e => .error e
          | .ok childDiffs =>
            match diffChildren tx entry recur rest with
            | .error e => .error e
            | .ok restDiffs => .ok (childDiffs ++ restDiffs)

/-- `diffRecursive` from `index/workspace.go`, with fuel.  Mirrors the Go
control flow: the nil-tree-entry `Added` case, the object case (checksum
comparison when not tombstoned, suppression when tombstoned), and the
directory pass listing staged children with `("", "", -1)` paging. -/
def diffRecursive (tx : RepoOperations) (branch : String) :
    Nat → Option WorkspaceEntry → Option Entry → Merkle → Except DiffErr (List Difference)
  | 0, _, _, _ => .error .outOfFuel
  | fuel + 1, wsEntry, entry, tree =>
    match entry with
    | none =>
      match wsEntry with
      | none => .error .nilDeref
      | some w =>
        match w.entryType with
        | none => .error .nilDeref
        | some t =>
          .ok [{ dtype := .added, direction := .left, path := w.path, pathType := t }]
    | some e =>
      let dirPass : Unit → Except DiffErr (List Difference) := fun _ =>
        match tx.listWorkspaceDirectory branch (wsPathOf wsEntry) "" "" (-1) with
        | .error err => .error (.store err)
        | .ok (wsEntriesInDir, _) =>
          diffChildren tx e
            (fun c ce => diffRecursive tx branch fuel (some c) ce tree) wsEntriesInDir
      match wsEntry with
      | none => dirPass ()
      | some w =>
        match w.entryType with
        | none => .error .nilDeref
        | some .tree => dirPass ()
        | some .object =>
          if w.tombstoneCount = 0 then
            match w.entryChecksum with
            | none => .error .nilDeref
            | some chk =>
              if e.checksum ≠ chk then
                .ok [{ dtype := .changed, direction := .left,
                       path := w.path, pathType := .object }]
              else dirPass ()
          else if 1 ≤ w.tombstoneCount then .ok []
          else dirPass ()

/-- `DiffWorkspace`: read the branch, build the root entry over its commit
root (Go zero value `0` for the unset `ObjectCount`), and run the recursion
from `(nil, root)`.  Any error inside the transaction is returned with no
difference list. -/
def DiffWorkspace (tx : RepoOperations) (repoId branch : String) (fuel : Nat) :
    Except DiffErr (List Difference) :=
  match tx.readBranch branch with
  | .error e => .error (.store e)
  | .ok branchData =>
    diffRecursive tx branch fuel none
      (some { name := "", address := branchData.commitRoot, entryType := .tree,
              checksum := "", objectCount := 0 })
      { root := branchData.commitRoot }

/-!
Embedding of `catalog/cataloger_revert_entry.go`.  The `entries` table is a
row list; `min_commit = 0` marks a staged (uncommitted) row.  `db.Transact`
rollback semantics are explicit in the result type: the operation returns the
error outcome together with the state the caller observes afterwards, which is
the original state whenever the transaction function returned an error.
-/

/-- One row of the `entries` table; only the columns `RevertEntry` touches are
kept (`branch_id`, `path`, `min_commit`), plus `max_commit` so that theorems
about state preservation are not vacuous on the remaining columns. -/
structure EntryRow where
  branchID : Int
  path : String
  minCommit : Int
  maxCommit : Int
deriving DecidableEq

/-- Catalog database state: the `branches` table as
(repository, branch name, branch id) rows, and the `entries` table. -/
structure CatalogState where
  branches : List (String × String × Int)
  entries : List EntryRow
deriving DecidableEq

/-- Errors surfaced by the cataloger's revert path. -/
inductive CatalogErr
  | validation (field : String)
  | branchNotFound
  | entryNotFound
deriving DecidableEq

/-- Modelled from the spec: `getBranchID` resolves (repository, branch) to the
internal branch identifier under a shared branch lock, failing when the branch
is absent; its implementation is outside this core, and the lock has no
observable effect in a sequential model. -/
def getBranchID (st : CatalogState) (repository branch : String) :
    Except CatalogErr Int :=
  match st.branches.find? (fun b => b.1 == repository && b.2.1 == branch) with
  | some b => .ok b.2.2
  | none => .error .branchNotFound

/-- The `WHERE branch_id = $1 AND path = $2 AND min_commit = 0` filter of the
revert DELETE. -/
def isStagedAt (branchID : Int) (p : String) (r : EntryRow) : Bool :=
  r.branchID == branchID && r.path == p && r.minCommit == 0

/-- `RevertEntry`: validate the identifiers, resolve the branch id, DELETE the
staged row at the path, and fail with `entryNotFound` unless exactly one row
was affected; the transaction rolls the deletion back on that failure, so an
error outcome always carries the original state.  The identifier validators
(`ValidateRepoName`, `ValidateBranchName`, `ValidatePath`) are outside this
core and are abstracted as the three predicate parameters; Go iterates the
validated fields in unspecified map order, and this embedding fixes one
order, which theorems avoid depending on by assuming all three succeed. -/
def RevertEntry (validRepo validBranch validPath : String → Bool)
    (st : CatalogState) (repository branch p : String) :
    Except CatalogErr Unit × CatalogState :=
  if ¬ validRepo repository then (.error (.validation "repository"), st)
  else if ¬ validBranch branch then (.error (.validation "branch"), st)
  else if ¬ validPath p then (.error (.validation "path"), st)
  else
    match getBranchID st repository branch with
    | .error e => (.error e, st)
    | .ok branchID =>
      let affected := (st.entries.filter (isStagedAt branchID p)).length
      if affected ≠ 1 then (.error .entryNotFound, st)
      else (.ok (), { st with entries := st.entries.filter (fun r => ¬ isStagedAt branchID p r) })

/-! Concrete store doubles and states used to instantiate the theorems. -/

/-- Store double: empty workspace listings and a childless tree. -/
def emptyTx : RepoOperations where
  readBranch := fun _ => .ok { commitRoot := "root" }
  listWorkspaceDirectory := fun _ _ _ _ _ => .ok ([], "")
  readTreeEntry := fun _ _ => .error .notFound

def treeRoot : Merkle := { root := "root" }

/-- A committed object entry. -/
def eObj : Entry :=
  { name := "a", address := "addrA", entryType := .object, checksum := "c0", objectCount := 5 }

/-- A staged object with new content. -/
def wStagedObj : WorkspaceEntry :=
  { path := "a", entryName := some "a", entryType := some .object,
    entryChecksum := some "c1", tombstoneCount := 0 }

/-- A staged object whose checksum matches the committed one. -/
def wSameObj : WorkspaceEntry :=
  { path := "a", entryName := some "a", entryType := some .object,
    entryChecksum := some "c0", tombstoneCount := 0 }

/-- A tombstoned staged object. -/
def wTombObj : WorkspaceEntry :=
  { path := "a", entryName := some "a", entryType := some .object,
    entryChecksum := none, tombstoneCount := 1 }

/-- A non-tombstoned staged object with the checksum pointer absent. -/
def wNoChk : WorkspaceEntry :=
  { path := "a", entryName := some "a", entryType := some .object,
    entryChecksum := none, tombstoneCount := 0 }

/-- A staged directory entry whose tombstone count matches `eObj.objectCount`
set on the same-named tree child. -/
def wTomb5 : WorkspaceEntry :=
  { path := "a", entryName := some "a", entryType := some .tree,
    entryChecksum := none, tombstoneCount := 5 }

/-- An object-typed staged entry with the same matching tombstone count. -/
def wTomb5Obj : WorkspaceEntry :=
  { path := "a", entryName := some "a", entryType := some .object,
    entryChecksum := none, tombstoneCount := 5 }

/-- Store double whose tree has one child `"a"` (namely `eObj`). -/
def oneChildTx : RepoOperations where
  readBranch := fun _ => .ok { commitRoot := "root" }
  listWorkspaceDirectory := fun _ _ _ _ _ => .ok ([], "")
  readTreeEntry := fun _ n => if n == "a" then .ok eObj else .error .notFound

/-- Store double whose branch read fails with a storage error. -/
def branchErrTx : RepoOperations where
  readBranch := fun _ => .error (.other 7)
  listWorkspaceDirectory := fun _ _ _ _ _ => .ok ([], "")
  readTreeEntry := fun _ _ => .error .notFound

/-- Store double whose tree reads fail with a storage error. -/
def treeErrTx : RepoOperations where
  readBranch := fun _ => .ok { commitRoot := "root" }
  listWorkspaceDirectory := fun _ _ _ _ _ => .ok ([], "")
  readTreeEntry := fun _ _ => .error (.other 3)

/-- Store double whose workspace listings fail with a storage error. -/
def listErrTx : RepoOperations where
  readBranch := fun _ => .ok { commitRoot := "root" }
  listWorkspaceDirectory := fun _ _ _ _ _ => .error (.other 9)
  readTreeEntry := fun _ _ => .error .notFound

/-- Validator double accepting every identifier. -/
def vAll : String → Bool := fun _ => true

/-- Catalog state with two staged rows at the same (branch, path) — the
invariant-violating shape for the multi-row revert case. -/
def stDup : CatalogState :=
  { branches := [("repo1", "main", 1)],
    entries := [ { branchID := 1, path := "a/b", minCommit := 0, maxCommit := 0 },
                 { branchID := 1, path := "a/b", minCommit := 0, maxCommit := 0 } ] }

/-- Catalog state with one staged row at path `"x"` only. -/
def stOne : CatalogState :=
  { branches := [("repo1", "main", 1)],
    entries := [ { branchID := 1, path := "x", minCommit := 0, maxCommit := 0 } ] }

/-! Claim theorems. -/

/-- C7: when the committed tree entry is nil (the path exists only in the
workspace), `diffRecursive` emits exactly one `Added` difference carrying the
workspace entry's path and entry type, and that branch of the recursion ends
there; in particular a staged Object with no tree counterpart yields exactly
one `Added` difference. -/
theorem diffRecursive_nil_tree_added (tx : RepoOperations) (branch : String)
    (fuel : Nat) (w : WorkspaceEntry) (t : EntryType) (tree : Merkle)
    (hty : w.entryType = some t) :
    diffRecursive tx branch (fuel + 1) (some w) none tree =
      .ok [{ dtype := .added, direction := .left, path := w.path, pathType := t }] := by
  simp [diffRecursive, hty]

/-- Witness for C7 at a concrete store and staged object. -/
theorem diffRecursive_nil_tree_added_witness :
    diffRecursive emptyTx "main" 1 (some wStagedObj) none treeRoot =
      .ok [{ dtype := .added, direction := .left, path := "a", pathType := .object }] :=
  diffRecursive_nil_tree_added emptyTx "main" 0 wStagedObj .object treeRoot rfl

/-- C5: a tombstoned staged Object (`TombstoneCount >= 1`) processed at its own
recursion step with a committed tree counterpart produces no difference at that
call site: the call returns an empty contribution, leaving any removal to be
reported by the parent directory pass. -/
theorem diffRecursive_tombstoned_object_silent (tx : RepoOperations)
    (branch : String) (fuel : Nat) (w : WorkspaceEntry) (e : Entry) (tree : Merkle)
    (hty : w.entryType = some .object) (htc : 1 ≤ w.tombstoneCount) :
    diffRecursive tx branch (fuel + 1) (some w) (some e) tree = .ok [] := by
  have h0 : ¬ w.tombstoneCount = 0 := by omega
  simp [diffRecursive, hty, h0, htc]

/-- Witness for C5 at a concrete tombstoned object. -/
theorem diffRecursive_tombstoned_object_silent_witness :
    diffRecursive emptyTx "main" 1 (some wTombObj) (some eObj) treeRoot = .ok [] :=
  diffRecursive_tombstoned_object_silent emptyTx "main" 0 wTombObj eObj treeRoot rfl
    (by decide)

/-- C3: a non-tombstoned staged Object with a committed counterpart emits
exactly one `Changed` difference and stops when the checksums differ, and
contributes no difference when they are equal.  In the equal case the code
falls through to the directory pass, so the statement carries the Workspace
Store contract for an object path: listing the directory at the object's own
path returns no staged children (an object has no immediate children). -/
theorem diffRecursive_object_checksum (tx : RepoOperations) (branch : String)
    (fuel : Nat) (w : WorkspaceEntry) (e : Entry) (tree : Merkle) (chk : String)
    (hty : w.entryType = some .object) (htc : w.tombstoneCount = 0)
    (hchk : w.entryChecksum = some chk) :
    (e.checksum ≠ chk →
      diffRecursive tx branch (fuel + 1) (some w) (some e) tree =
        .ok [{ dtype := .changed, direction := .left, path := w.path,
               pathType := .object }]) ∧
    (e.checksum = chk →
      ∀ tok, tx.listWorkspaceDirectory branch w.path "" "" (-1) = .ok ([], tok) →
        diffRecursive tx branch (fuel + 1) (some w) (some e) tree = .ok []) := by
  constructor
  · intro hne
    simp [diffRecursive, hty, htc, hchk, hne]
  · intro heq tok hlist
    simp [diffRecursive, hty, htc, hchk, heq, wsPathOf, hlist, diffChildren]

/-- Witness for C3: both halves at concrete staged objects over `eObj`. -/
theorem diffRecursive_object_checksum_witness :
    diffRecursive emptyTx "main" 1 (some wStagedObj) (some eObj) treeRoot =
      .ok [{ dtype := .changed, direction := .left, path := "a",
             pathType := .object }] ∧
    diffRecursive emptyTx "main" 1 (some wSameObj) (some eObj) treeRoot = .ok [] := by
  constructor
  · exact (diffRecursive_object_checksum emptyTx "main" 0 wStagedObj eObj treeRoot
      "c1" rfl rfl rfl).1 (by decide)
  · exact (diffRecursive_object_checksum emptyTx "main" 0 wSameObj eObj treeRoot
      "c0" rfl rfl rfl).2 (by decide) "" rfl

/-- C2: in a directory pass, a staged child whose same-named tree child exists
and whose `TombstoneCount` equals that tree child's `ObjectCount` contributes
exactly one `Removed` difference with its path and entry type, prepended to
the contribution of the remaining children; the result does not depend on the
recursive call `recur` at `c`, so the engine does not recurse into `c` and
none of `c`'s descendants appear individually. -/
theorem diffChildren_full_tombstone_removed (tx : RepoOperations) (e te : Entry)
    (c : WorkspaceEntry) (rest : List WorkspaceEntry) (name : String)
    (t : EntryType)
    (recur : WorkspaceEntry → Option Entry → Except DiffErr (List Difference))
    (hname : c.entryName = some name)
    (hlook : tx.readTreeEntry e.address name = .ok te)
    (hcount : c.tombstoneCount = te.objectCount)
    (hty : c.entryType = some t) :
    diffChildren tx e recur (c :: rest) =
      Except.map
        (fun restDiffs =>
          { dtype := .removed, direction := .left, path := c.path,
            pathType := t } :: restDiffs)
        (diffChildren tx e recur rest) := by
  simp only [diffChildren, hname, lookupTreeChild, hlook, isFullTombstone, hty]
  rw [if_pos (by simp [hcount])]
  cases diffChildren tx e recur rest <;> simp [Except.map]

/-- Witness for C2: the fully tombstoned staged directory `wTomb5` over the
tree child `eObj` (`ObjectCount = 5`) contributes exactly one `Removed`,
under a `recur` double that would loudly report any recursion into it. -/
theorem diffChildren_full_tombstone_removed_witness :
    diffChildren oneChildTx eObj (fun _ _ => .error .nilDeref) [wTomb5] =
      .ok [{ dtype := .removed, direction := .left, path := "a",
             pathType := .tree }] := by
  have h := diffChildren_full_tombstone_removed oneChildTx eObj eObj wTomb5 []
    "a" .tree (fun _ _ => .error .nilDeref) rfl rfl rfl rfl
  simpa [diffChildren, Except.map] using h

/-- C9: the full-tombstone short-circuit is applied regardless of the staged
child's entry type: an Object-typed staged child whose `TombstoneCount` equals
the `ObjectCount` of its same-named tree entry is emitted as `Removed` with
`PathType` Object by the parent pass, independently of the recursive call
(so it is not recursed into); and at its own recursion step a tombstoned
object with a committed counterpart emits nothing, so the parent pass is the
only place an object-level deletion ever surfaces. -/
theorem diffChildren_object_full_tombstone (tx : RepoOperations) (e te : Entry)
    (c : WorkspaceEntry) (rest : List WorkspaceEntry) (name : String)
    (recur : WorkspaceEntry → Option Entry → Except DiffErr (List Difference))
    (branch : String) (fuel : Nat) (tree : Merkle)
    (hname : c.entryName = some name)
    (hlook : tx.readTreeEntry e.address name = .ok te)
    (hcount : c.tombstoneCount = te.objectCount)
    (hty : c.entryType = some .object) :
    diffChildren tx e recur (c :: rest) =
      Except.map
        (fun restDiffs =>
          { dtype := .removed, direction := .left, path := c.path,
            pathType := .object } :: restDiffs)
        (diffChildren tx e recur rest) ∧
    (∀ w e', w.entryType = some EntryType.object → 1 ≤ w.tombstoneCount →
      diffRecursive tx branch (fuel + 1) (some w) (some e') tree = .ok []) := by
  constructor
  · simp only [diffChildren, hname, lookupTreeChild, hlook, isFullTombstone, hty]
    rw [if_pos (by simp [hcount])]
    cases diffChildren tx e recur rest <;> simp [Except.map]
  · intro w e' hty' htc'
    have h0 : ¬ w.tombstoneCount = 0 := by omega
    simp [diffRecursive, hty', h0, htc']

/-- Witness for C9: the tombstoned staged object `wTomb5Obj` over `eObj`
(`ObjectCount = 5`) is emitted as `Removed` with `PathType` Object by the
parent pass, and the tombstoned object `wTombObj` emits nothing at its own
step. -/
theorem diffChildren_object_full_tombstone_witness :
    diffChildren oneChildTx eObj (fun _ _ => .error .nilDeref) [wTomb5Obj] =
      .ok [{ dtype := .removed, direction := .left, path := "a",
             pathType := .object }] ∧
    diffRecursive oneChildTx "main" 1 (some wTombObj) (some eObj) treeRoot =
      .ok [] := by
  have h := diffChildren_object_full_tombstone oneChildTx eObj eObj wTomb5Obj []
    "a" (fun _ _ => .error .nilDeref) "main" 0 treeRoot rfl rfl rfl rfl
  constructor
  · simpa [diffChildren, Except.map] using h.1
  · exact h.2 wTombObj eObj rfl (by decide)

/-- C4 counterexample: a non-tombstoned staged Object whose `EntryChecksum` is
absent does not defer to the tree — the comparison `entry.Checksum !=
*wsEntry.EntryChecksum` dereferences the absent pointer and the diff step
faults (nil-pointer dereference) instead of completing. -/
theorem absent_checksum_faults :
    diffRecursive emptyTx "main" 1 (some wNoChk) (some eObj) treeRoot =
      .error .nilDeref := by
  simp [diffRecursive, wNoChk]

/-- C4 amended: an absent `EntryChecksum` is only safe when the entry is
tombstoned (`TombstoneCount >= 1`), where the short-circuit of the conjunction
skips the dereference and the step completes emitting nothing; for a
non-tombstoned staged Object the checksum comparison dereferences the absent
value and the step faults with a nil-pointer dereference rather than
deferring to the tree. -/
theorem diffRecursive_absent_checksum (tx : RepoOperations) (branch : String)
    (fuel : Nat) (w : WorkspaceEntry) (e : Entry) (tree : Merkle)
    (hty : w.entryType = some .object) (hchk : w.entryChecksum = none) :
    (1 ≤ w.tombstoneCount →
      diffRecursive tx branch (fuel + 1) (some w) (some e) tree = .ok []) ∧
    (w.tombstoneCount = 0 →
      diffRecursive tx branch (fuel + 1) (some w) (some e) tree =
        .error .nilDeref) := by
  constructor
  · intro htc
    have h0 : ¬ w.tombstoneCount = 0 := by omega
    simp [diffRecursive, hty, h0, htc]
  · intro htc
    simp [diffRecursive, hty, htc, hchk]

/-- Witness for the amended C4 at concrete entries: the tombstoned `wTombObj`
completes, the non-tombstoned `wNoChk` faults. -/
theorem diffRecursive_absent_checksum_witness :
    diffRecursive emptyTx "main" 1 (some wTombObj) (some eObj) treeRoot =
      .ok [] ∧
    diffRecursive emptyTx "main" 1 (some wNoChk) (some eObj) treeRoot =
      .error .nilDeref := by
  constructor
  · exact (diffRecursive_absent_checksum emptyTx "main" 0 wTombObj eObj treeRoot
      rfl rfl).1 (by decide)
  · exact (diffRecursive_absent_checksum emptyTx "main" 0 wNoChk eObj treeRoot
      rfl rfl).2 rfl

/-- C6: failure semantics of the diff.  (a) A branch-read failure aborts the
whole diff with that store error and no difference list.  (b) A not-found
result from `ReadTreeEntry` is handled internally as a nil tree entry — the
child is processed through the recursive call with no committed counterpart —
and is never turned into the diff's error.  (c) Any other `ReadTreeEntry`
error aborts the child loop with exactly that store error, discarding all
accumulated differences.  (d) A workspace-listing failure aborts the directory
pass with that store error.  (e) An error from a child's recursive call aborts
the loop with that error, discarding the differences of earlier children.
Since the result type carries either a complete list or an error, the caller
never observes a partial difference list. -/
theorem diffWorkspace_error_semantics (tx : RepoOperations)
    (repoId branch : String) (fuel : Nat) (e : Entry) (c : WorkspaceEntry)
    (rest : List WorkspaceEntry) (name : String)
    (recur : WorkspaceEntry → Option Entry → Except DiffErr (List Difference))
    (tree : Merkle) :
    (∀ err, tx.readBranch branch = .error err →
      DiffWorkspace tx repoId branch fuel = .error (.store err)) ∧
    (c.entryName = some name →
      tx.readTreeEntry e.address name = .error .notFound →
      diffChildren tx e recur (c :: rest) =
        (recur c none).bind
          (fun ds => Except.map (fun restDiffs => ds ++ restDiffs)
            (diffChildren tx e recur rest))) ∧
    (∀ err, err ≠ StoreErr.notFound → c.entryName = some name →
      tx.readTreeEntry e.address name = .error err →
      diffChildren tx e recur (c :: rest) = .error (.store err)) ∧
    (∀ err, tx.listWorkspaceDirectory branch "" "" "" (-1) = .error err →
      diffRecursive tx branch (fuel + 1) none (some e) tree =
        .error (.store err)) ∧
    (∀ er, c.entryName = some name →
      tx.readTreeEntry e.address name = .error .notFound →
      recur c none = .error er →
      diffChildren tx e recur (c :: rest) = .error er) := by
  refine ⟨?_, ?_, ?_, ?_, ?_⟩
  · intro err herr
    simp [DiffWorkspace, herr]
  · intro hname hnf
    simp only [diffChildren, hname, lookupTreeChild, hnf, isFullTombstone]
    cases recur c none with
    | error er => simp [Except.bind]
    | ok ds =>
      cases diffChildren tx e recur rest <;> simp [Except.bind, Except.map]
  · intro err hne hname herr
    have : (match tx.readTreeEntry e.address name with
        | .error .notFound => (.ok none : Except DiffErr (Option Entry))
        | .error er => .error (.store er)
        | .ok te => .ok (some te)) = .error (.store err) := by
      rw [herr]
      cases err with
      | notFound => exact absurd rfl hne
      | other k => rfl
    simp only [diffChildren, hname, lookupTreeChild, this]
  · intro err herr
    simp [diffRecursive, wsPathOf, herr]
  · intro er hname hnf hrec
    simp [diffChildren, hname, lookupTreeChild, hnf, isFullTombstone, hrec]

/-- Witness for C6: concrete store doubles exhibiting the branch-read failure,
the internally handled not-found, the propagated tree-store error, and the
propagated listing error. -/
theorem diffWorkspace_error_semantics_witness :
    DiffWorkspace branchErrTx "repo1" "main" 5 = .error (.store (.other 7)) ∧
    diffChildren emptyTx eObj (fun _ _ => .ok []) [wStagedObj] = .ok [] ∧
    diffChildren treeErrTx eObj (fun _ _ => .ok []) [wStagedObj] =
      .error (.store (.other 3)) ∧
    diffRecursive listErrTx "main" 1 none (some eObj) treeRoot =
      .error (.store (.other 9)) := by
  refine ⟨?_, ?_, ?_, ?_⟩
  · exact (diffWorkspace_error_semantics branchErrTx "repo1" "main" 5 eObj
      wStagedObj [] "a" (fun _ _ => .ok []) treeRoot).1 (.other 7) rfl
  · have h := (diffWorkspace_error_semantics emptyTx "repo1" "main" 5 eObj
      wStagedObj [] "a" (fun _ _ => .ok []) treeRoot).2.1 rfl rfl
    simpa [diffChildren, Except.bind, Except.map] using h
  · exact (diffWorkspace_error_semantics treeErrTx "repo1" "main" 5 eObj
      wStagedObj [] "a" (fun _ _ => .ok []) treeRoot).2.2.1 (.other 3)
      (by simp) rfl rfl
  · exact (diffWorkspace_error_semantics listErrTx "repo1" "main" 0 eObj
      wStagedObj [] "a" (fun _ _ => .ok []) treeRoot).2.2.2.1 (.other 9) rfl

/-- C1 counterexample: on a state whose DELETE matches two staged rows, the
operation fails with `entryNotFound` — exactly the error of the zero-rows
case — not with a distinct internal consistency error. -/
theorem revert_multirow_counterexample :
    (stDup.entries.filter (isStagedAt 1 "a/b")).length = 2 ∧
    RevertEntry vAll vAll vAll stDup "repo1" "main" "a/b" =
      (.error .entryNotFound, stDup) := by
  constructor <;> rfl

/-- C1 amended: a `RevertEntry` call whose DELETE affects more than one row
does not silently succeed, but it fails with `entryNotFound` — the same error
reported for the zero-rows case — because the code guards `affected != 1`
with a single error; no distinct internal consistency error exists, and the
transaction leaves the entries state unchanged. -/
theorem revert_multirow_not_found (vR vB vP : String → Bool)
    (st : CatalogState) (repository branch p : String) (bid : Int)
    (hvR : vR repository = true) (hvB : vB branch = true) (hvP : vP p = true)
    (hbid : getBranchID st repository branch = .ok bid)
    (hmulti : 2 ≤ (st.entries.filter (isStagedAt bid p)).length) :
    RevertEntry vR vB vP st repository branch p =
      (.error .entryNotFound, st) := by
  have hne : (st.entries.filter (isStagedAt bid p)).length ≠ 1 := by omega
  simp [RevertEntry, hvR, hvB, hvP, hbid, hne]

/-- Witness for the amended C1 at the duplicate-row state. -/
theorem revert_multirow_not_found_witness :
    RevertEntry vAll vAll vAll stDup "repo1" "main" "a/b" =
      (.error .entryNotFound, stDup) :=
  revert_multirow_not_found vAll vAll vAll stDup "repo1" "main" "a/b" 1
    rfl rfl rfl rfl (by decide)

/-- C8: a `RevertEntry` call on a path with no staged (`min_commit = 0`) row
for the branch fails with `entryNotFound` and leaves the entries state
unchanged — revert succeeds only from the staged state. -/
theorem revert_absent_not_found (vR vB vP : String → Bool)
    (st : CatalogState) (repository branch p : String) (bid : Int)
    (hvR : vR repository = true) (hvB : vB branch = true) (hvP : vP p = true)
    (hbid : getBranchID st repository branch = .ok bid)
    (habsent : ∀ r ∈ st.entries, isStagedAt bid p r = false) :
    RevertEntry vR vB vP st repository branch p =
      (.error .entryNotFound, st) := by
  have hfil : st.entries.filter (isStagedAt bid p) = [] := by
    rw [List.filter_eq_nil_iff]
    intro r hr
    simp [habsent r hr]
  have hne : (st.entries.filter (isStagedAt bid p)).length ≠ 1 := by
    rw [hfil]; decide
  simp [RevertEntry, hvR, hvB, hvP, hbid, hne]

/-- Witness for C8: reverting the unstaged path `"a/b"` on `stOne`. -/
theorem revert_absent_not_found_witness :
    RevertEntry vAll vAll vAll stOne "repo1" "main" "a/b" =
      (.error .entryNotFound, stOne) :=
  revert_absent_not_found vAll vAll vAll stOne "repo1" "main" "a/b" 1
    rfl rfl rfl rfl (by decide)

/-- `lookupTreeChild` either succeeds or carries a store error; it never
produces the fuel-exhaustion outcome. -/
theorem lookupTreeChild_cases (tx : RepoOperations) (a n : String) :
    (∃ oe, lookupTreeChild tx a n = .ok oe) ∨
    (∃ se, lookupTreeChild tx a n = .error (.store se)) := by
  unfold lookupTreeChild
  cases h : tx.readTreeEntry a n with
  | error er => cases er <;> simp
  | ok te => simp

/-- If no child's recursive call exhausts the fuel, neither does the child
loop. -/
theorem diffChildren_no_fuel_exhaustion (tx : RepoOperations) (e : Entry)
    (recur : WorkspaceEntry → Option Entry → Except DiffErr (List Difference))
    (children : List WorkspaceEntry)
    (hrec : ∀ c ∈ children, ∀ ce, recur c ce ≠ .error .outOfFuel) :
    diffChildren tx e recur children ≠ .error .outOfFuel := by
  induction children with
  | nil => simp [diffChildren]
  | cons c rest ih =>
    have ihr : diffChildren tx e recur rest ≠ .error .outOfFuel :=
      ih (fun c' h' => hrec c' (by simp [h']))
    cases hn : c.entryName with
    | none => simp [diffChildren, hn]
    | some name =>
      rcases lookupTreeChild_cases tx e.address name with ⟨oe, hl⟩ | ⟨se, hl⟩
      · by_cases hf : isFullTombstone c oe
        · cases hty : c.entryType with
          | none => simp [diffChildren, hn, hl, hf, hty]
          | some t =>
            cases hr : diffChildren tx e recur rest with
            | error er =>
              have her : er ≠ .outOfFuel := fun h => ihr (by rw [hr, h])
              simp [diffChildren, hn, hl, hf, hty, hr, her]
            | ok restDiffs => simp [diffChildren, hn, hl, hf, hty, hr]
        · cases hc : recur c oe with
          | error er =>
            have her : er ≠ .outOfFuel := fun h => hrec c (by simp) oe (by rw [hc, h])
            simp [diffChildren, hn, hl, hf, hc, her]
          | ok childDiffs =>
            cases hr : diffChildren tx e recur rest with
            | error er =>
              have her : er ≠ .outOfFuel := fun h => ihr (by rw [hr, h])
              simp [diffChildren, hn, hl, hf, hc, hr, her]
            | ok restDiffs => simp [diffChildren, hn, hl, hf, hc, hr]
      · simp [diffChildren, hn, hl]


/-- Control-flow shape of one successor step of `diffRecursive` when the tree
entry is present: the step either faults on a nil dereference, returns a
difference list without recursing (the `Changed` and tombstone branches), or
runs the directory pass over the workspace listing. -/
theorem diffRecursive_succ_cases (tx : RepoOperations) (branch : String)
    (f : Nat) (wsEntry : Option WorkspaceEntry) (e : Entry) (tree : Merkle) :
    diffRecursive tx branch (f + 1) wsEntry (some e) tree = .error .nilDeref ∨
    (∃ ds, diffRecursive tx branch (f + 1) wsEntry (some e) tree = .ok ds) ∨
    diffRecursive tx branch (f + 1) wsEntry (some e) tree =
      (match tx.listWorkspaceDirectory branch (wsPathOf wsEntry) "" "" (-1) with
       | .error err => .error (.store err)
       | .ok (l, _) =>
         diffChildren tx e
           (fun c ce => diffRecursive tx branch f (some c) ce tree) l) := by
  cases wsEntry with
  | none =>
    right; right
    simp only [diffRecursive]
  | some w =>
    cases hty : w.entryType with
    | none =>
      left
      simp [diffRecursive, hty]
    | some t =>
      cases t with
      | tree =>
        right; right
        simp only [diffRecursive, hty]
      | object =>
        by_cases htc : w.tombstoneCount = 0
        · cases hck : w.entryChecksum with
          | none =>
            left
            simp [diffRecursive, hty, htc, hck]
          | some chk =>
            by_cases hco : e.checksum = chk
            · right; right
              simp only [diffRecursive, hty, htc, hck]
              simp [hco]
            · right; left
              exact ⟨[{ dtype := .changed, direction := .left, path := w.path,
                        pathType := .object }],
                by simp [diffRecursive, hty, htc, hck, hco]⟩
        · by_cases h1 : 1 ≤ w.tombstoneCount
          · right; left
            exact ⟨[], by simp [diffRecursive, hty, htc, h1]⟩
          · right; right
            simp only [diffRecursive, hty]
            simp [htc, h1]

/-- C10: `diffRecursive` terminates on every input, under the precondition
that each full `ListWorkspaceDirectory` call returns only entries whose paths
are strictly deeper extensions of the listed path (strictly longer paths),
within a namespace of finite depth `B`: once the fuel exceeds the remaining
depth budget it is never exhausted, because the recursion descends strictly in
nesting depth and the `Added`, tombstoned-Object and full-tombstone-`Removed`
branches return without recursing. -/
theorem diffRecursive_terminates (tx : RepoOperations) (branch : String)
    (tree : Merkle) (B : Nat)
    (hList : ∀ p l tok,
      tx.listWorkspaceDirectory branch p "" "" (-1) = .ok (l, tok) →
      ∀ c ∈ l, p.length < c.path.length ∧ c.path.length ≤ B) :
    ∀ fuel wsEntry entry, (wsPathOf wsEntry).length ≤ B →
      B + 1 < fuel + (wsPathOf wsEntry).length →
      diffRecursive tx branch fuel wsEntry entry tree ≠ .error .outOfFuel := by
  intro fuel
  induction fuel with
  | zero =>
    intro wsEntry entry hle hlt
    exfalso
    omega
  | succ f ih =>
    intro wsEntry entry hle hlt
    cases entry with
    | none =>
      cases wsEntry with
      | none => simp [diffRecursive]
      | some w => cases hty : w.entryType <;> simp [diffRecursive, hty]
    | some e =>
      rcases diffRecursive_succ_cases tx branch f wsEntry e tree with h | ⟨ds, h⟩ | h
      · rw [h]; simp
      · rw [h]; simp
      · rw [h]
        cases hxl : tx.listWorkspaceDirectory branch (wsPathOf wsEntry) "" "" (-1) with
        | error err => simp
        | ok pr =>
          obtain ⟨l, tok⟩ := pr
          apply diffChildren_no_fuel_exhaustion
          intro c hcmem ce
          have hlen : c.path.length ≤ B := (hList (wsPathOf wsEntry) l tok hxl c hcmem).2
          have hdeep : (wsPathOf wsEntry).length < c.path.length :=
            (hList (wsPathOf wsEntry) l tok hxl c hcmem).1
          apply ih (some c) ce
          · simpa [wsPathOf] using hlen
          · simp only [wsPathOf]
            omega

/-- Witness for C10: over the empty-listing store, two units of fuel already
suffice from the root, and the fuel-exhaustion outcome is not reached. -/
theorem diffRecursive_terminates_witness :
    diffRecursive emptyTx "main" 2 none (some eObj) treeRoot ≠
      .error .outOfFuel := by
  apply diffRecursive_terminates emptyTx "main" treeRoot 0
  · intro p l tok h c hc
    simp only [emptyTx] at h
    injection h with h'
    injection h' with h1 h2
    subst h1
    simp at hc
  · decide
  · decide
